import Mathlib

/-
Verification of the daily synchronization subsystem of the multi-tenant
analytics dashboard.

The development is a shallow embedding of the backend modules
`services/ga4Service.js`, `services/syncService.js`,
`middleware/autoSync.js` and `jobs/dailySync.js`:

* the GA4 Data API is modelled as an abstract `Provider` record of
  response functions (one per remote call the code makes);
* a GA4 metric cell (`{value: string}`) is modelled as `Option Rat`:
  `some q` is a numeric string with value `q`, `none` a missing or
  unparseable value (JavaScript `parseInt`/`parseFloat` return `NaN`
  there, and the code's `|| 0` turns that into `0`);
* the Postgres database is modelled as an in-memory record `DB` of the
  three tables the subsystem touches (`clients`, `daily_metrics`,
  `sync_logs`); plain reads and the upsert are total state transformers,
  while the two failures the code distinguishes (loading the client
  roster, writing a `sync_logs` row) are modelled by the `rosterError`
  and `auditOk` fields of the ambient `Env`;
* `NOW()` timestamps are an abstract tick `now : Nat` threaded through
  the orchestrator; wall-clock execution times are not modelled and are
  recorded as 0;
* a JavaScript function that can reject returns `Except String`, the
  `String` being `error.message`.
-/

namespace SEO

/-! ## GA4 Data API modelling (`services/ga4Service.js`) -/

/-- Error codes the service code inspects on a GA4 API error
(`error.code` in the `catch` of `fetchDailyMetrics`); any other
code is modelled as `none`. -/
inductive GAErrCode
  | permissionDenied
  | invalidArgument
  | resourceExhausted
deriving DecidableEq, Repr

/-- An error thrown by the GA4 client library: the code (if one of the
three the service inspects) and the message. -/
structure GAError where
  code : Option GAErrCode
  message : String
deriving DecidableEq, Repr

/-- One row of a GA4 `runReport` response.  A metric cell is `some q`
when the cell's string parses to the number `q`, `none` when missing or
unparseable. -/
structure GARow where
  dimensionValues : List String
  metricValues : List (Option Rat)
deriving DecidableEq, Repr

/-- A GA4 `runReport` response: its (possibly empty) list of rows. -/
structure GAResponse where
  rows : List GARow
deriving DecidableEq, Repr

/-- The parts of a `runReport` request body that the service code
constructs: property path, date range, requested metric names, and
whether the Organic Search `dimensionFilter` is attached. -/
structure ReportRequest where
  property : String
  startDate : String
  endDate : String
  metrics : List String
  organicFilter : Bool
deriving DecidableEq, Repr

/-- The external GA4 analytics client (`analyticsDataClient`): one
function per remote call the service code makes. -/
structure Provider where
  runReport : ReportRequest → Except GAError GAResponse
  getMetadata : String → Except GAError Unit

/-- Truncation toward zero, the rounding of JavaScript `parseInt` on a
numeric string. -/
def ratTrunc (q : Rat) : Int :=
  if 0 ≤ q then ⌊q⌋ else -⌊-q⌋

/-- `parseInt(cell.value) || 0`: 0 on a missing/unparseable cell. -/
def jsParseInt (v : Option Rat) : Int :=
  match v with
  | none => 0
  | some q => ratTrunc q

/-- `parseFloat(cell.value) || 0`: 0 on a missing/unparseable cell. -/
def jsParseFloat (v : Option Rat) : Rat :=
  match v with
  | none => 0
  | some q => q

/-- Result of `parseMetricsResponse`: the six unfiltered metrics. -/
structure ParsedTotals where
  sessions : Int
  users : Int
  newUsers : Int
  pageviews : Int
  avgSessionDuration : Rat
  bounceRate : Rat
deriving DecidableEq, Repr

/-- `parseMetricsResponse(response)`: zero metrics on an empty response,
otherwise the six metric cells of the first row, counts via `parseInt`,
reals via `parseFloat`, the bounce-rate fraction scaled by 100. -/
def parseMetricsResponse (response : GAResponse) : ParsedTotals :=
  match response.rows with
  | [] =>
    { sessions := 0, users := 0, newUsers := 0, pageviews := 0
      avgSessionDuration := 0, bounceRate := 0 }
  | row :: _ =>
    let metricValues := row.metricValues
    { sessions := jsParseInt (metricValues.getD 0 none)
      users := jsParseInt (metricValues.getD 1 none)
      newUsers := jsParseInt (metricValues.getD 2 none)
      pageviews := jsParseInt (metricValues.getD 3 none)
      avgSessionDuration := jsParseFloat (metricValues.getD 4 none)
      bounceRate := jsParseFloat (metricValues.getD 5 none) * 100 }

/-- `parseOrganicSessions(response)`: 0 on an empty response, otherwise
the single sessions cell of the first row. -/
def parseOrganicSessions (response : GAResponse) : Int :=
  match response.rows with
  | [] => 0
  | row :: _ => jsParseInt (row.metricValues.getD 0 none)

/-- Is `pat` a prefix of `cs`? (helper for substring search). -/
def listStartsWith : List Char → List Char → Bool
  | [], _ => true
  | _ :: _, [] => false
  | p :: ps, c :: cs => p == c && listStartsWith ps cs

/-- Does `cs` contain `pat` as a contiguous sublist? -/
def listIncludes : List Char → List Char → Bool
  | [], pat => pat.isEmpty
  | c :: cs, pat => listStartsWith pat (c :: cs) || listIncludes cs pat

/-- JavaScript `s.includes(pat)`. -/
def strIncludes (s pat : String) : Bool :=
  listIncludes s.toList pat.toList

/-- The `catch` block of `fetchDailyMetrics`: maps the three known GA4
error codes and the `invalid_rapt` message to the service's own error
messages, and rethrows anything else (whose `message` is what callers
see). -/
def ga4ErrorMessage (e : GAError) (propertyId date : String) : String :=
  match e.code with
  | some GAErrCode.permissionDenied =>
    "Permission denied for property " ++ propertyId ++
      ". Ensure service account has Viewer access."
  | some GAErrCode.invalidArgument =>
    "Invalid property ID or date format: " ++ propertyId ++ ", " ++ date
  | some GAErrCode.resourceExhausted =>
    "GA4 API quota exceeded. Please try again later."
  | none =>
    if strIncludes e.message "invalid_rapt" then
      "Google Cloud session expired. Please run \"gcloud auth application-default login\" to re-authenticate."
    else
      e.message

/-- The unfiltered (all traffic) `runReport` request of
`fetchDailyMetrics`. -/
def mkTotalRequest (propertyId date : String) : ReportRequest :=
  { property := "properties/" ++ propertyId
    startDate := date, endDate := date
    metrics := ["sessions", "totalUsers", "newUsers", "screenPageViews",
                "averageSessionDuration", "bounceRate"]
    organicFilter := false }

/-- The Organic-Search-filtered `runReport` request of
`fetchDailyMetrics`. -/
def mkOrganicRequest (propertyId date : String) : ReportRequest :=
  { property := "properties/" ++ propertyId
    startDate := date, endDate := date
    metrics := ["sessions"]
    organicFilter := true }

/-- The combined metrics record `fetchDailyMetrics` resolves with. -/
structure MetricsResult where
  date : String
  sessions : Int
  users : Int
  newUsers : Int
  pageviews : Int
  avgSessionDuration : Rat
  bounceRate : Rat
  organicSessions : Int
deriving DecidableEq, Repr

/-- `fetchDailyMetrics(propertyId, date)`: two `runReport` calls (all
traffic, then Organic Search only), parsed and combined; any error from
either call is mapped by the `catch` block. -/
def fetchDailyMetrics (p : Provider) (propertyId date : String) :
    Except String MetricsResult :=
  match p.runReport (mkTotalRequest propertyId date) with
  | Except.error e => Except.error (ga4ErrorMessage e propertyId date)
  | Except.ok totalResponse =>
    match p.runReport (mkOrganicRequest propertyId date) with
    | Except.error e => Except.error (ga4ErrorMessage e propertyId date)
    | Except.ok organicResponse =>
      let totalMetrics := parseMetricsResponse totalResponse
      Except.ok
        { date := date
          sessions := totalMetrics.sessions
          users := totalMetrics.users
          newUsers := totalMetrics.newUsers
          pageviews := totalMetrics.pageviews
          avgSessionDuration := totalMetrics.avgSessionDuration
          bounceRate := totalMetrics.bounceRate
          organicSessions := parseOrganicSessions organicResponse }

/-- `formatGA4Date(ga4Date)`: `substring(0,4) + '-' + substring(4,6) +
'-' + substring(6,8)` (over the character list; GA4 dates are ASCII). -/
def formatGA4Date (ga4Date : String) : String :=
  let cs := ga4Date.toList
  String.mk (cs.take 4) ++ "-" ++ String.mk ((cs.drop 4).take 2) ++ "-" ++
    String.mk ((cs.drop 6).take 2)

/-- `validatePropertyAccess(propertyId)`: a metadata probe inside a
catch-all `try` — `true` when the probe succeeds, `false` on every
error (the JavaScript function never rejects). -/
def validatePropertyAccess (p : Provider) (propertyId : String) : Bool :=
  match p.getMetadata ("properties/" ++ propertyId ++ "/metadata") with
  | Except.ok _ => true
  | Except.error _ => false

/-! ## Database state (`clients`, `daily_metrics`, `sync_logs` tables) -/

/-- A row of the `clients` table (the columns the sync subsystem reads). -/
structure Client where
  id : Nat
  name : String
  gaPropertyId : String
  timezone : String
  isActive : Bool
deriving DecidableEq, Repr

/-- A row of the `daily_metrics` table. -/
structure MetricRow where
  clientId : Nat
  date : String
  sessions : Int
  users : Int
  newUsers : Int
  pageviews : Int
  avgSessionDuration : Rat
  bounceRate : Rat
  organicSessions : Int
  syncedAt : Nat
deriving DecidableEq, Repr

/-- A row of the `sync_logs` table.  `status` is the string the code
inserts (`"success"` or `"failed"`). -/
structure SyncLog where
  clientId : Nat
  syncDate : String
  status : String
  recordsSynced : Nat
  errorMessage : Option String
  executionTimeMs : Nat
deriving DecidableEq, Repr

/-- The database as seen by the sync subsystem. -/
structure DB where
  clients : List Client
  dailyMetrics : List MetricRow
  syncLogs : List SyncLog
deriving DecidableEq, Repr

/-- The ambient environment of one sync pass: the injected
`fetchDailyMetrics` dependency, whether loading the client roster fails
(`some msg` models the `SELECT ... FROM clients` query rejecting with
that message), and whether the `sync_logs` insert succeeds (`false`
models the insert inside `logSync` throwing). -/
structure Env where
  fetch : String → String → Except String MetricsResult
  rosterError : Option String
  auditOk : Bool

/-! ## Sync service (`services/syncService.js`) -/

/-- Does `r` have the upsert key `(cid, d)`? (the `(client_id, date)`
uniqueness key of `daily_metrics`). -/
def metricKeyMatch (cid : Nat) (d : String) (r : MetricRow) : Bool :=
  r.clientId == cid && r.date == d

/-- The `daily_metrics` row written for `(cid, date)` from `m` at tick
`now` — the column list of the `INSERT`/`DO UPDATE SET`. -/
def mkMetricRow (cid : Nat) (date : String) (m : MetricsResult) (now : Nat) :
    MetricRow :=
  { clientId := cid, date := date
    sessions := m.sessions, users := m.users, newUsers := m.newUsers
    pageviews := m.pageviews, avgSessionDuration := m.avgSessionDuration
    bounceRate := m.bounceRate, organicSessions := m.organicSessions
    syncedAt := now }

/-- The `INSERT ... ON CONFLICT (client_id, date) DO UPDATE SET ...`
upsert: overwrite every metric column and `synced_at` of the row keyed
by `(cid, date)` if one exists (the overwritten row keeps its key, so it
equals `mkMetricRow` outright), else append the new row. -/
def upsertDailyMetric (db : DB) (cid : Nat) (date : String)
    (m : MetricsResult) (now : Nat) : DB :=
  if db.dailyMetrics.any (metricKeyMatch cid date) then
    { db with dailyMetrics := db.dailyMetrics.map (fun r =>
        if metricKeyMatch cid date r then mkMetricRow cid date m now else r) }
  else
    { db with dailyMetrics := db.dailyMetrics ++ [mkMetricRow cid date m now] }

/-- `logSync(...)`: append one `sync_logs` row.  The JavaScript function
wraps the insert in its own `try`/`catch` and only console-logs a
failure, so it never rejects; `env.auditOk = false` models the insert
failing (no row is stored, nothing propagates). -/
def logSync (env : Env) (db : DB) (clientId : Nat) (syncDate : String)
    (status : String) (recordsSynced : Nat) (errorMessage : Option String)
    (executionTime : Nat) : DB :=
  if env.auditOk then
    { db with syncLogs := db.syncLogs ++
        [{ clientId := clientId, syncDate := syncDate, status := status
           recordsSynced := recordsSynced, errorMessage := errorMessage
           executionTimeMs := executionTime }] }
  else
    db

/-- The per-tenant result object `syncClientMetrics` resolves with
(wall-clock `executionTime` is recorded as 0 in the model). -/
structure SyncResult where
  success : Bool
  clientId : Nat
  clientName : String
  date : String
  metrics : Option MetricsResult
  error : Option String
  executionTime : Nat
deriving DecidableEq, Repr

/-- `syncClientMetrics(client, date)`: fetch, upsert, log success — or
on any fetch error, log a `"failed"` entry with 0 records and the error
message.  Either way it resolves with a result object. -/
def syncClientMetrics (env : Env) (now : Nat) (client : Client)
    (date : String) (db : DB) : SyncResult × DB :=
  match env.fetch client.gaPropertyId date with
  | Except.ok metrics =>
    let db1 := upsertDailyMetric db client.id date metrics now
    let db2 := logSync env db1 client.id date "success" 1 none 0
    ({ success := true, clientId := client.id, clientName := client.name
       date := date, metrics := some metrics, error := none
       executionTime := 0 }, db2)
  | Except.error msg =>
    let db1 := logSync env db client.id date "failed" 0 (some msg) 0
    ({ success := false, clientId := client.id, clientName := client.name
       date := date, metrics := none, error := some msg
       executionTime := 0 }, db1)

/-- Lexicographic (code-point) comparison of character lists — the
order Postgres applies to `name` under byte-wise collation. -/
def charListLE : List Char → List Char → Bool
  | [], _ => true
  | _ :: _, [] => false
  | a :: as, b :: bs =>
    if a.toNat < b.toNat then true
    else if b.toNat < a.toNat then false
    else charListLE as bs

/-- `ORDER BY name` comparison on two names. -/
def nameLE (a b : String) : Bool :=
  charListLE a.toList b.toList

/-- Insert a client into a name-sorted list (helper for `ORDER BY name`). -/
def insertByName (c : Client) : List Client → List Client
  | [] => [c]
  | x :: xs => if nameLE c.name x.name then c :: x :: xs else x :: insertByName c xs

/-- Stable insertion sort by `name`, modelling `ORDER BY name`. -/
def sortByName : List Client → List Client
  | [] => []
  | c :: cs => insertByName c (sortByName cs)

/-- `SELECT ... FROM clients WHERE is_active = true ORDER BY name` —
the roster load, the one batch-fatal query of `syncAllClients`. -/
def loadActiveClients (env : Env) (db : DB) : Except String (List Client) :=
  match env.rosterError with
  | some e => Except.error e
  | none => Except.ok (sortByName (db.clients.filter (fun c => c.isActive)))

/-- The aggregate summary `syncAllClients` resolves with (the code's
empty-roster branch omits the `date` field, hence `Option`; wall-clock
`totalTime` is not modelled). -/
structure SyncSummary where
  success : Bool
  date : Option String
  totalClients : Nat
  successCount : Nat
  failureCount : Nat
  results : List SyncResult
deriving DecidableEq, Repr

/-- The sequential `for (const client of clients)` loop of
`syncAllClients` (the inter-tenant `sleep(500)` is pure throttling and
has no effect on state). -/
def syncClientsLoop (env : Env) (now : Nat) (date : String) :
    List Client → DB → List SyncResult × DB
  | [], db => ([], db)
  | c :: cs, db =>
    let step := syncClientMetrics env now c date db
    let rest := syncClientsLoop env now date cs step.2
    (step.1 :: rest.1, rest.2)

/-- `syncAllClients(date)`: load the active roster (the only rejection
point), short-circuit on an empty roster, else run the per-client loop
and aggregate. -/
def syncAllClients (env : Env) (now : Nat) (date : String) (db : DB) :
    Except String (SyncSummary × DB) :=
  match loadActiveClients env db with
  | Except.error e => Except.error e
  | Except.ok clients =>
    if clients.isEmpty then
      Except.ok ({ success := true, date := none, totalClients := 0
                   successCount := 0, failureCount := 0, results := [] }, db)
    else
      let out := syncClientsLoop env now date clients db
      let successCount := (out.1.filter (fun r => r.success)).length
      let failureCount := (out.1.filter (fun r => !r.success)).length
      Except.ok ({ success := failureCount == 0, date := some date
                   totalClients := clients.length
                   successCount := successCount
                   failureCount := failureCount, results := out.1 }, out.2)

/-! ## Calendar arithmetic (`getYesterdayDate`, `generateDateRange`)

JavaScript `Date` semantics are modelled for a process with a fixed
UTC offset (no DST): `new Date('YYYY-MM-DD')` is UTC midnight of that
day, `setDate(getDate() ± 1)` shifts the instant by exactly one day,
and `toISOString().split('T')[0]` is the UTC calendar date of the
instant. -/

/-- A proleptic Gregorian calendar date. -/
structure CivilDate where
  year : Nat
  month : Nat
  day : Nat
deriving DecidableEq, Repr

/-- Civil date from a count of days since 1970-01-01 (standard
era/year-of-era Gregorian conversion, `Nat`-valued). -/
def civilFromDays (z : Nat) : CivilDate :=
  let z' := z + 719468
  let era := z' / 146097
  let doe := z' % 146097
  let yoe := (doe - doe / 1460 + doe / 36524 - doe / 146096) / 365
  let y := yoe + era * 400
  let doy := doe - (365 * yoe + yoe / 4 - yoe / 100)
  let mp := (5 * doy + 2) / 153
  let d := doy - (153 * mp + 2) / 5 + 1
  let m := if mp < 10 then mp + 3 else mp - 9
  { year := if m ≤ 2 then y + 1 else y, month := m, day := d }

/-- Two-digit zero padding of a month/day number. -/
def pad2 (n : Nat) : String :=
  if n < 10 then "0" ++ Nat.repr n else Nat.repr n

/-- `YYYY-MM-DD` rendering of a civil date (the date part of
`toISOString()`). -/
def formatCivilDate (d : CivilDate) : String :=
  Nat.repr d.year ++ "-" ++ pad2 d.month ++ "-" ++ pad2 d.day

/-- The invoking process's clock: the current instant in milliseconds
since the epoch, and the process's fixed UTC offset in minutes
(local time = UTC + offset). -/
structure Clock where
  nowMs : Nat
  tzOffsetMin : Int
deriving DecidableEq, Repr

/-- Milliseconds per day. -/
def msPerDay : Nat := 86400000

/-- `getYesterdayDate()`: `new Date()` is the instant `nowMs`;
`setDate(getDate() - 1)` moves the instant back exactly one day (local
day-of-month decrement under a fixed offset is exactly 24 h); then
`toISOString().split('T')[0]` renders the UTC calendar date of that
instant — the process's timezone offset plays no part in the output. -/
def getYesterdayDate (clock : Clock) : String :=
  formatCivilDate (civilFromDays ((clock.nowMs - msPerDay) / msPerDay))

/-- Modelled from the spec: "current date minus one calendar day, in
the invoking process's reference timezone" — the local calendar date of
the current instant, stepped back one day (for comparison with
`getYesterdayDate`). -/
def specYesterdayDate (clock : Clock) : String :=
  let localDays := ((clock.nowMs : Int) + clock.tzOffsetMin * 60000).toNat /
    msPerDay
  formatCivilDate (civilFromDays (localDays - 1))

/-- `syncYesterday()`: compute yesterday and delegate to
`syncAllClients`. -/
def syncYesterday (env : Env) (now : Nat) (clock : Clock) (db : DB) :
    Except String (SyncSummary × DB) :=
  syncAllClients env now (getYesterdayDate clock) db

/-- Split a character list on `'-'` (helper for parsing `YYYY-MM-DD`). -/
def splitOnDashAux : List Char → List Char → List (List Char)
  | [], acc => [acc.reverse]
  | c :: cs, acc =>
    if c == '-' then acc.reverse :: splitOnDashAux cs []
    else splitOnDashAux cs (c :: acc)

/-- Decimal digits to a number (helper for parsing `YYYY-MM-DD`). -/
def digitsToNat : List Char → Nat → Nat
  | [], acc => acc
  | c :: cs, acc => digitsToNat cs (acc * 10 + (c.toNat - 48))

/-- Parse a `YYYY-MM-DD` string into a civil date (what
`new Date('YYYY-MM-DD')` denotes, as a calendar date). -/
def parseCivilDate (s : String) : CivilDate :=
  match splitOnDashAux s.toList [] with
  | [y, m, d] =>
    { year := digitsToNat y 0, month := digitsToNat m 0, day := digitsToNat d 0 }
  | _ => { year := 0, month := 0, day := 0 }

/-- Gregorian leap year. -/
def isLeapYear (y : Nat) : Bool :=
  (y % 4 == 0 && y % 100 != 0) || y % 400 == 0

/-- Days in a Gregorian month. -/
def daysInMonth (y m : Nat) : Nat :=
  if m == 2 then (if isLeapYear y then 29 else 28)
  else if m == 4 || m == 6 || m == 9 || m == 11 then 30
  else 31

/-- `current.setDate(current.getDate() + 1)`: the next calendar day. -/
def nextDay (d : CivilDate) : CivilDate :=
  if d.day < daysInMonth d.year d.month then
    { d with day := d.day + 1 }
  else if d.month < 12 then
    { year := d.year, month := d.month + 1, day := 1 }
  else
    { year := d.year + 1, month := 1, day := 1 }

/-- `current <= end` on `Date` instants: chronological (lexicographic)
order on civil dates. -/
def civilLE (a b : CivilDate) : Bool :=
  a.year < b.year ||
    (a.year == b.year &&
      (a.month < b.month || (a.month == b.month && a.day ≤ b.day)))

/-- The `while (current <= end)` loop of `generateDateRange`, with a
fuel bound (the caller passes more fuel than there are days up to and
including `upto`'s year, so the loop never stops early). -/
def genRangeAux : Nat → CivilDate → CivilDate → List String
  | 0, _, _ => []
  | fuel + 1, cur, upto =>
    if civilLE cur upto then
      formatCivilDate cur :: genRangeAux fuel (nextDay cur) upto
    else
      []

/-- `generateDateRange(startDate, endDate)`: the inclusive list of
`YYYY-MM-DD` days from `startDate` to `endDate` (empty when the start
is after the end).  The JavaScript loop advances a `Date` one day per
iteration and renders via `toISOString`, which is timezone-independent
here because ISO date-only strings parse as UTC midnight. -/
def generateDateRange (startDate endDate : String) : List String :=
  let s := parseCivilDate startDate
  let e := parseCivilDate endDate
  genRangeAux ((e.year + 1) * 366) s e

/-- `SELECT id, name, ga_property_id FROM clients WHERE id = $1` —
first row if any (note: no `is_active` filter on this path). -/
def findClient (db : DB) (clientId : Nat) : Option Client :=
  db.clients.find? (fun c => c.id == clientId)

/-- The summary `backfillClientData` resolves with. -/
structure BackfillSummary where
  success : Bool
  clientId : Nat
  startDate : String
  endDate : String
  totalDays : Nat
  successCount : Nat
  failureCount : Nat
  results : List SyncResult
deriving DecidableEq, Repr

/-- The sequential `for (const date of dates)` loop of
`backfillClientData` (the `sleep(1000)` is pure throttling). -/
def syncDatesLoop (env : Env) (now : Nat) (client : Client) :
    List String → DB → List SyncResult × DB
  | [], db => ([], db)
  | d :: ds, db =>
    let step := syncClientMetrics env now client d db
    let rest := syncDatesLoop env now client ds step.2
    (step.1 :: rest.1, rest.2)

/-- `backfillClientData(clientId, startDate, endDate)`: reject iff the
client does not exist, else run the per-day loop over the inclusive
range and aggregate (the code sets `success: true` unconditionally). -/
def backfillClientData (env : Env) (now : Nat) (clientId : Nat)
    (startDate endDate : String) (db : DB) :
    Except String (BackfillSummary × DB) :=
  match findClient db clientId with
  | none => Except.error ("Client " ++ Nat.repr clientId ++ " not found")
  | some client =>
    let dates := generateDateRange startDate endDate
    let out := syncDatesLoop env now client dates db
    Except.ok
      ({ success := true, clientId := clientId
         startDate := startDate, endDate := endDate
         totalDays := dates.length
         successCount := (out.1.filter (fun r => r.success)).length
         failureCount := (out.1.filter (fun r => !r.success)).length
         results := out.1 }, out.2)

/-! ## Entry-point interleaving model (`middleware/autoSync.js`,
`jobs/dailySync.js`, `POST /api/metrics/sync`)

The process-wide state relevant to overlapping syncs: the module-level
`syncInProgress` flag of `autoSync.js`, and how many `syncYesterday`
invocations are currently in flight, split by who started them.  Each
in-flight invocation covers every active tenant.  Steps: the guarded
`triggerBackgroundSync` (start or skip), the unguarded manual
`POST /api/metrics/sync` handler, the unguarded cron / `runSyncNow`
trigger, and completions (an auto-started sync resets the flag in its
`then`/`catch`; the others never touch it). -/

/-- Process state for the concurrency guard. -/
structure SyncProcState where
  syncInProgress : Bool
  autoRunning : Nat
  otherRunning : Nat
deriving DecidableEq, Repr

/-- One atomic transition of the process. -/
inductive SyncStep : SyncProcState → SyncProcState → Prop
  | autoStart (s : SyncProcState) (h : s.syncInProgress = false) :
      SyncStep s ⟨true, s.autoRunning + 1, s.otherRunning⟩
  | autoSkip (s : SyncProcState) (h : s.syncInProgress = true) :
      SyncStep s s
  | manualStart (s : SyncProcState) :
      SyncStep s ⟨s.syncInProgress, s.autoRunning, s.otherRunning + 1⟩
  | cronStart (s : SyncProcState) :
      SyncStep s ⟨s.syncInProgress, s.autoRunning, s.otherRunning + 1⟩
  | autoFinish (s : SyncProcState) (h : 0 < s.autoRunning) :
      SyncStep s ⟨false, s.autoRunning - 1, s.otherRunning⟩
  | otherFinish (s : SyncProcState) (h : 0 < s.otherRunning) :
      SyncStep s ⟨s.syncInProgress, s.autoRunning, s.otherRunning - 1⟩

/-- The freshly started process: flag clear, nothing in flight. -/
def initProcState : SyncProcState := ⟨false, 0, 0⟩

/-- States the process can reach. -/
def ReachableProc (s : SyncProcState) : Prop :=
  Relation.ReflTransGen SyncStep initProcState s

/-- Total number of syncs in flight (each covers every active tenant,
so two in flight means some tenant is being synced twice at once). -/
def inFlight (s : SyncProcState) : Nat :=
  s.autoRunning + s.otherRunning

/-! ## Concrete fixtures used by counterexamples and witnesses -/

/-- A GA4 response carrying the spec's example row: bounce-rate
fraction 0.4532 in the sixth metric cell, compact date `20240115`. -/
def bounceExample : GAResponse :=
  ⟨[{ dimensionValues := ["20240115"]
      metricValues := [some 120, some 80, some 30, some 400,
                       some (191 / 2), some (4532 / 10000)] }]⟩

/-- A transient (non-access-denied) failure: no GA4 error code, a
network-style message. -/
def transientGAError : GAError :=
  { code := none, message := "ECONNRESET: connection reset by peer" }

/-- A provider whose every call fails transiently. -/
def transientProvider : Provider :=
  { runReport := fun _ => Except.error transientGAError
    getMetadata := fun _ => Except.error transientGAError }

/-- A provider that always answers with zero rows (no traffic) and a
succeeding metadata probe. -/
def emptyProvider : Provider :=
  { runReport := fun _ => Except.ok ⟨[]⟩
    getMetadata := fun _ => Except.ok () }

/-- A fetch dependency that always succeeds with the spec's example
metrics. -/
def okFetch : String → String → Except String MetricsResult :=
  fun _ d =>
    Except.ok { date := d, sessions := 120, users := 80, newUsers := 30
                pageviews := 400, avgSessionDuration := 191 / 2
                bounceRate := 38, organicSessions := 45 }

/-- An environment with a working fetch, a loadable roster and a
working audit write. -/
def envOkTrue : Env :=
  { fetch := okFetch, rosterError := none, auditOk := true }

/-- A concrete active tenant. -/
def clientA : Client :=
  { id := 1, name := "Acme", gaPropertyId := "123", timezone := "UTC"
    isActive := true }

/-- A database with no clients and no rows. -/
def noClientsDB : DB := ⟨[], [], []⟩

/-- A database holding just `clientA`. -/
def oneClientDB : DB := ⟨[clientA], [], []⟩

/-- The all-zero metrics record for `date`. -/
def zeroMetricsResult (date : String) : MetricsResult :=
  { date := date, sessions := 0, users := 0, newUsers := 0, pageviews := 0
    avgSessionDuration := 0, bounceRate := 0, organicSessions := 0 }

/-- A clock at UTC+13:00 (e.g. NZDT), at 12:30 UTC on 2024-03-01
(day 19783 since the epoch); the local calendar date is 2024-03-02. -/
def clockNZ : Clock :=
  { nowMs := 19783 * 86400000 + 45000000, tzOffsetMin := 780 }

/-- A clock at UTC, same instant. -/
def clockUTC : Clock :=
  { nowMs := 19783 * 86400000 + 45000000, tzOffsetMin := 0 }

/-- A second concrete active tenant (whose fetch the C1 witness makes
fail). -/
def clientB : Client :=
  { id := 2, name := "Beta", gaPropertyId := "456", timezone := "UTC"
    isActive := true }

/-- A fetch dependency that fails for property `"456"` (quota error)
and succeeds for every other property. -/
def fetchFail456 : String → String → Except String MetricsResult :=
  fun pid d =>
    if pid == "456" then
      Except.error "GA4 API quota exceeded. Please try again later."
    else okFetch pid d

/-- Environment in which exactly the property-`"456"` tenant fails. -/
def envFail456 : Env :=
  { fetch := fetchFail456, rosterError := none, auditOk := true }

/-- A database holding the two tenants. -/
def twoClientDB : DB := ⟨[clientA, clientB], [], []⟩

/-! ## Observation helpers over the database -/

/-- Is there a `daily_metrics` row keyed `(cid, d)`? -/
def hasMetricRow (db : DB) (cid : Nat) (d : String) : Bool :=
  db.dailyMetrics.any (metricKeyMatch cid d)

/-- All `daily_metrics` rows keyed `(cid, d)` (under the database's
uniqueness constraint this list has at most one element). -/
def metricRowsFor (db : DB) (cid : Nat) (d : String) : List MetricRow :=
  db.dailyMetrics.filter (metricKeyMatch cid d)

/-- Is `l` a failed sync-log entry for `(cid, d)` with 0 records? -/
def isFailedLogFor (cid : Nat) (d : String) (l : SyncLog) : Bool :=
  l.clientId == cid && l.syncDate == d && l.status == "failed" &&
    l.recordsSynced == 0

/-- Number of failed (0-record) sync-log entries for `(cid, d)`. -/
def failedLogCount (db : DB) (cid : Nat) (d : String) : Nat :=
  (db.syncLogs.filter (isFailedLogFor cid d)).length

/-- Number of sync-log entries (any status, any date) for tenant `cid`. -/
def tenantLogCount (db : DB) (cid : Nat) : Nat :=
  (db.syncLogs.filter (fun l => l.clientId == cid)).length

/-! ## Basic state lemmas -/

@[simp]
theorem logSync_dailyMetrics (env : Env) (db : DB) (cid : Nat) (d st : String)
    (n : Nat) (em : Option String) (t : Nat) :
    (logSync env db cid d st n em t).dailyMetrics = db.dailyMetrics := by
  unfold logSync; split <;> rfl

@[simp]
theorem logSync_clients (env : Env) (db : DB) (cid : Nat) (d st : String)
    (n : Nat) (em : Option String) (t : Nat) :
    (logSync env db cid d st n em t).clients = db.clients := by
  unfold logSync; split <;> rfl

@[simp]
theorem upsert_clients (db : DB) (cid : Nat) (d : String) (m : MetricsResult)
    (t : Nat) : (upsertDailyMetric db cid d m t).clients = db.clients := by
  unfold upsertDailyMetric; split <;> rfl

@[simp]
theorem upsert_syncLogs (db : DB) (cid : Nat) (d : String) (m : MetricsResult)
    (t : Nat) : (upsertDailyMetric db cid d m t).syncLogs = db.syncLogs := by
  unfold upsertDailyMetric; split <;> rfl

theorem mkMetricRow_mem_upsert (db : DB) (cid : Nat) (d : String)
    (m : MetricsResult) (t : Nat) :
    mkMetricRow cid d m t ∈ (upsertDailyMetric db cid d m t).dailyMetrics := by
  unfold upsertDailyMetric
  cases hany : db.dailyMetrics.any (metricKeyMatch cid d) with
  | true =>
    obtain ⟨x, hx, hpx⟩ := List.any_eq_true.mp hany
    simp only [if_pos rfl]
    exact List.mem_map.mpr ⟨x, hx, by simp [hpx]⟩
  | false =>
    simp

theorem syncClientMetrics_clients (env : Env) (now : Nat) (c : Client)
    (date : String) (db : DB) :
    (syncClientMetrics env now c date db).2.clients = db.clients := by
  unfold syncClientMetrics
  cases h : env.fetch c.gaPropertyId date <;> simp

theorem metricKeyMatch_mkRow (cid : Nat) (d : String) (m : MetricsResult)
    (t : Nat) : metricKeyMatch cid d (mkMetricRow cid d m t) = true := by
  simp [metricKeyMatch, mkMetricRow]

theorem metricKeyMatch_elim {cid : Nat} {d : String} {x : MetricRow}
    (h : metricKeyMatch cid d x = true) : x.clientId = cid ∧ x.date = d := by
  simpa [metricKeyMatch, Bool.and_eq_true, beq_iff_eq] using h

/-- The overwrite function of the upsert preserves every key
predicate: a row keyed `(cid, d)` is replaced by the fresh row with the
same key, any other row is untouched. -/
theorem metricKeyMatch_upsertFun (cid : Nat) (d : String) (cid' : Nat)
    (d' : String) (m : MetricsResult) (t : Nat) (x : MetricRow) :
    metricKeyMatch cid' d'
        (if metricKeyMatch cid d x then mkMetricRow cid d m t else x) =
      metricKeyMatch cid' d' x := by
  cases hx : metricKeyMatch cid d x with
  | false => simp [hx]
  | true =>
    obtain ⟨h1, h2⟩ := metricKeyMatch_elim hx
    simp [hx, metricKeyMatch, mkMetricRow, h1, h2]

theorem filter_map_overwrite {α : Type} (p : α → Bool) (new : α)
    (hnew : p new = true) (l : List α) :
    (l.map (fun x => if p x then new else x)).filter p =
      (l.filter p).map (fun _ => new) := by
  induction l with
  | nil => rfl
  | cons x xs ih =>
    cases hx : p x <;> simp [List.filter_cons, hx, hnew, ih]

theorem filter_map_fix {α : Type} (p : α → Bool) (f : α → α)
    (hp : ∀ x, p (f x) = p x) (hfix : ∀ x, p x = true → f x = x)
    (l : List α) : (l.map f).filter p = l.filter p := by
  induction l with
  | nil => rfl
  | cons x xs ih =>
    cases hx : p x with
    | true => simp [List.filter_cons, hp, hx, hfix x hx, ih]
    | false => simp [List.filter_cons, hp, hx, ih]

theorem metricRowsFor_logSync (env : Env) (db : DB) (a : Nat) (b st : String)
    (n : Nat) (em : Option String) (t : Nat) (cid : Nat) (d : String) :
    metricRowsFor (logSync env db a b st n em t) cid d =
      metricRowsFor db cid d := by
  unfold metricRowsFor
  rw [logSync_dailyMetrics]

theorem hasMetricRow_logSync (env : Env) (db : DB) (a : Nat) (b st : String)
    (n : Nat) (em : Option String) (t : Nat) (cid : Nat) (d : String) :
    hasMetricRow (logSync env db a b st n em t) cid d =
      hasMetricRow db cid d := by
  unfold hasMetricRow
  rw [logSync_dailyMetrics]

/-- Overwrite shape of the upsert when the key is present. -/
theorem upsert_dailyMetrics_hit (db : DB) (cid : Nat) (d : String)
    (m : MetricsResult) (t : Nat)
    (hany : db.dailyMetrics.any (metricKeyMatch cid d) = true) :
    (upsertDailyMetric db cid d m t).dailyMetrics =
      db.dailyMetrics.map (fun r =>
        if metricKeyMatch cid d r then mkMetricRow cid d m t else r) := by
  unfold upsertDailyMetric
  rw [hany]
  simp

/-- Insert shape of the upsert when the key is absent. -/
theorem upsert_dailyMetrics_miss (db : DB) (cid : Nat) (d : String)
    (m : MetricsResult) (t : Nat)
    (hany : db.dailyMetrics.any (metricKeyMatch cid d) = false) :
    (upsertDailyMetric db cid d m t).dailyMetrics =
      db.dailyMetrics ++ [mkMetricRow cid d m t] := by
  unfold upsertDailyMetric
  rw [hany]
  simp

theorem metricRowsFor_upsert_self (db : DB) (cid : Nat) (d : String)
    (m : MetricsResult) (t : Nat)
    (hlen : (metricRowsFor db cid d).length ≤ 1) :
    metricRowsFor (upsertDailyMetric db cid d m t) cid d =
      [mkMetricRow cid d m t] := by
  have hnew := metricKeyMatch_mkRow cid d m t
  unfold metricRowsFor at hlen ⊢
  cases hany : db.dailyMetrics.any (metricKeyMatch cid d) with
  | false =>
    have hall := List.any_eq_false.mp hany
    have hnil : db.dailyMetrics.filter (metricKeyMatch cid d) = [] :=
      List.filter_eq_nil_iff.mpr fun a ha => by simp [hall a ha]
    rw [upsert_dailyMetrics_miss db cid d m t hany]
    simp [List.filter_append, hnil, hnew]
  | true =>
    rw [upsert_dailyMetrics_hit db cid d m t hany]
    rw [filter_map_overwrite _ _ hnew]
    have hne : db.dailyMetrics.filter (metricKeyMatch cid d) ≠ [] := by
      obtain ⟨x, hx, hpx⟩ := List.any_eq_true.mp hany
      intro hnil
      have := List.filter_eq_nil_iff.mp hnil x hx
      simp [hpx] at this
    cases hfl : db.dailyMetrics.filter (metricKeyMatch cid d) with
    | nil => exact absurd hfl hne
    | cons r rs =>
      cases rs with
      | nil => rfl
      | cons r2 rs2 =>
        rw [hfl] at hlen
        simp at hlen

theorem metricRowsFor_upsert_other (db : DB) (cid : Nat) (d : String)
    (m : MetricsResult) (t : Nat) (cid' : Nat) (d' : String)
    (h : ¬(cid' = cid ∧ d' = d)) :
    metricRowsFor (upsertDailyMetric db cid d m t) cid' d' =
      metricRowsFor db cid' d' := by
  have hnewF : metricKeyMatch cid' d' (mkMetricRow cid d m t) = false := by
    cases hb : metricKeyMatch cid' d' (mkMetricRow cid d m t) with
    | false => rfl
    | true =>
      obtain ⟨h1, h2⟩ := metricKeyMatch_elim hb
      exact absurd ⟨by simpa [mkMetricRow] using h1.symm,
        by simpa [mkMetricRow] using h2.symm⟩ h
  unfold metricRowsFor
  cases hany : db.dailyMetrics.any (metricKeyMatch cid d) with
  | false =>
    rw [upsert_dailyMetrics_miss db cid d m t hany]
    simp [List.filter_append, hnewF]
  | true =>
    rw [upsert_dailyMetrics_hit db cid d m t hany]
    apply filter_map_fix
    · exact metricKeyMatch_upsertFun cid d cid' d' m t
    · intro x hx
      obtain ⟨h1, h2⟩ := metricKeyMatch_elim hx
      have hxF : metricKeyMatch cid d x = false := by
        cases hb : metricKeyMatch cid d x with
        | false => rfl
        | true =>
          obtain ⟨h1', h2'⟩ := metricKeyMatch_elim hb
          exact absurd ⟨h1 ▸ h1'.symm ▸ rfl, h2 ▸ h2'.symm ▸ rfl⟩ h
      simp [hxF]

theorem hasMetricRow_upsert_self (db : DB) (cid : Nat) (d : String)
    (m : MetricsResult) (t : Nat) :
    hasMetricRow (upsertDailyMetric db cid d m t) cid d = true := by
  unfold hasMetricRow
  exact List.any_eq_true.mpr
    ⟨mkMetricRow cid d m t, mkMetricRow_mem_upsert db cid d m t,
      metricKeyMatch_mkRow cid d m t⟩

theorem hasMetricRow_upsert_mono (db : DB) (cid : Nat) (d : String)
    (m : MetricsResult) (t : Nat) (cid' : Nat) (d' : String)
    (h : hasMetricRow db cid' d' = true) :
    hasMetricRow (upsertDailyMetric db cid d m t) cid' d' = true := by
  unfold hasMetricRow at h ⊢
  cases hany : db.dailyMetrics.any (metricKeyMatch cid d) with
  | false =>
    rw [upsert_dailyMetrics_miss db cid d m t hany]
    simp [List.any_append, h]
  | true =>
    rw [upsert_dailyMetrics_hit db cid d m t hany]
    rw [List.any_map]
    have hfun :
        (metricKeyMatch cid' d' ∘ fun x =>
          if metricKeyMatch cid d x then mkMetricRow cid d m t else x) =
          metricKeyMatch cid' d' :=
      funext fun x => metricKeyMatch_upsertFun cid d cid' d' m t x
    rw [hfun]
    exact h

theorem upsert_length_le (db : DB) (cid : Nat) (d : String)
    (m : MetricsResult) (t : Nat) :
    (upsertDailyMetric db cid d m t).dailyMetrics.length ≤
      db.dailyMetrics.length + 1 := by
  cases hany : db.dailyMetrics.any (metricKeyMatch cid d) with
  | false => rw [upsert_dailyMetrics_miss db cid d m t hany]; simp
  | true => rw [upsert_dailyMetrics_hit db cid d m t hany]; simp [Nat.le_succ]

theorem failedLogCount_logSync_success (env : Env) (db : DB) (a : Nat)
    (b : String) (n : Nat) (em : Option String) (t : Nat) (cid : Nat)
    (d : String) :
    failedLogCount (logSync env db a b "success" n em t) cid d =
      failedLogCount db cid d := by
  unfold failedLogCount logSync
  cases env.auditOk with
  | false => rfl
  | true => simp [List.filter_append, isFailedLogFor]

theorem failedLogCount_logSync_failed_self (env : Env) (db : DB) (cid : Nat)
    (d : String) (em : Option String) (t : Nat)
    (haudit : env.auditOk = true) :
    failedLogCount (logSync env db cid d "failed" 0 em t) cid d =
      failedLogCount db cid d + 1 := by
  unfold failedLogCount logSync
  rw [haudit]
  simp [List.filter_append, isFailedLogFor]

theorem failedLogCount_upsert (db : DB) (cid : Nat) (d : String)
    (m : MetricsResult) (t : Nat) (cid' : Nat) (d' : String) :
    failedLogCount (upsertDailyMetric db cid d m t) cid' d' =
      failedLogCount db cid' d' := by
  unfold failedLogCount
  rw [upsert_syncLogs]

theorem tenantLogCount_logSync_self (env : Env) (db : DB) (cid : Nat)
    (d st : String) (n : Nat) (em : Option String) (t : Nat)
    (haudit : env.auditOk = true) :
    tenantLogCount (logSync env db cid d st n em t) cid =
      tenantLogCount db cid + 1 := by
  unfold tenantLogCount logSync
  rw [haudit]
  simp [List.filter_append]

theorem tenantLogCount_upsert (db : DB) (cid : Nat) (d : String)
    (m : MetricsResult) (t : Nat) (cid' : Nat) :
    tenantLogCount (upsertDailyMetric db cid d m t) cid' =
      tenantLogCount db cid' := by
  unfold tenantLogCount
  rw [upsert_syncLogs]

/-- Success branch of `syncClientMetrics`, written out. -/
theorem syncClientMetrics_ok (env : Env) (now : Nat) (c : Client)
    (date : String) (db : DB) (m : MetricsResult)
    (h : env.fetch c.gaPropertyId date = Except.ok m) :
    syncClientMetrics env now c date db =
      ({ success := true, clientId := c.id, clientName := c.name
         date := date, metrics := some m, error := none, executionTime := 0 },
       logSync env (upsertDailyMetric db c.id date m now) c.id date
         "success" 1 none 0) := by
  unfold syncClientMetrics
  rw [h]

/-- Failure branch of `syncClientMetrics`, written out. -/
theorem syncClientMetrics_error (env : Env) (now : Nat) (c : Client)
    (date : String) (db : DB) (msg : String)
    (h : env.fetch c.gaPropertyId date = Except.error msg) :
    syncClientMetrics env now c date db =
      ({ success := false, clientId := c.id, clientName := c.name
         date := date, metrics := none, error := some msg
         executionTime := 0 },
       logSync env db c.id date "failed" 0 (some msg) 0) := by
  unfold syncClientMetrics
  rw [h]

/-- Unfolding of the per-client loop on a cons cell. -/
theorem syncClientsLoop_cons (env : Env) (now : Nat) (date : String)
    (c0 : Client) (cs : List Client) (db : DB) :
    syncClientsLoop env now date (c0 :: cs) db =
      ((syncClientMetrics env now c0 date db).1 ::
        (syncClientsLoop env now date cs
          (syncClientMetrics env now c0 date db).2).1,
       (syncClientsLoop env now date cs
         (syncClientMetrics env now c0 date db).2).2) := rfl

theorem syncClientsLoop_clients (env : Env) (now : Nat) (date : String) :
    ∀ (cs : List Client) (db : DB),
      (syncClientsLoop env now date cs db).2.clients = db.clients := by
  intro cs
  induction cs with
  | nil => intro db; rfl
  | cons c0 cs ih =>
    intro db
    rw [syncClientsLoop_cons]
    rw [ih]
    exact syncClientMetrics_clients env now c0 date db

theorem hasMetricRow_syncClientMetrics_mono (env : Env) (now : Nat)
    (c : Client) (date : String) (db : DB) (cid : Nat) (d : String)
    (h : hasMetricRow db cid d = true) :
    hasMetricRow (syncClientMetrics env now c date db).2 cid d = true := by
  cases hf : env.fetch c.gaPropertyId date with
  | ok m =>
    rw [syncClientMetrics_ok env now c date db m hf]
    dsimp only
    rw [hasMetricRow_logSync]
    exact hasMetricRow_upsert_mono db c.id date m now cid d h
  | error msg =>
    rw [syncClientMetrics_error env now c date db msg hf]
    dsimp only
    rw [hasMetricRow_logSync]
    exact h

theorem syncClientsLoop_hasRow_mono (env : Env) (now : Nat) (date : String) :
    ∀ (cs : List Client) (db : DB) (cid : Nat) (d : String),
      hasMetricRow db cid d = true →
      hasMetricRow (syncClientsLoop env now date cs db).2 cid d = true := by
  intro cs
  induction cs with
  | nil => intro db cid d h; exact h
  | cons c0 cs ih =>
    intro db cid d h
    rw [syncClientsLoop_cons]
    exact ih _ cid d (hasMetricRow_syncClientMetrics_mono env now c0 date db cid d h)

theorem failedLogCount_syncClientMetrics_ok (env : Env) (now : Nat)
    (c : Client) (date : String) (db : DB) (m : MetricsResult) (cid : Nat)
    (d : String) (hf : env.fetch c.gaPropertyId date = Except.ok m) :
    failedLogCount (syncClientMetrics env now c date db).2 cid d =
      failedLogCount db cid d := by
  rw [syncClientMetrics_ok env now c date db m hf]
  dsimp only
  rw [failedLogCount_logSync_success, failedLogCount_upsert]

theorem failedLogCount_syncClientMetrics_error_self (env : Env) (now : Nat)
    (c : Client) (date : String) (db : DB) (msg : String)
    (hf : env.fetch c.gaPropertyId date = Except.error msg)
    (haudit : env.auditOk = true) :
    failedLogCount (syncClientMetrics env now c date db).2 c.id date =
      failedLogCount db c.id date + 1 := by
  rw [syncClientMetrics_error env now c date db msg hf]
  dsimp only
  exact failedLogCount_logSync_failed_self env db c.id date (some msg) 0 haudit

/-- The per-client loop, when exactly the clients equal to `K` fail:
every fetch-succeeding client gets a successful result and a stored
metric row, and the failed-log count for `K`'s key grows by the number
of occurrences of `K`. -/
theorem syncClientsLoop_isolation (env : Env) (now : Nat) (date : String)
    (K : Client) (eK : String)
    (hKfail : env.fetch K.gaPropertyId date = Except.error eK)
    (haudit : env.auditOk = true) :
    ∀ (cs : List Client) (db : DB),
      (∀ c ∈ cs, c = K ∨ ∃ m, env.fetch c.gaPropertyId date = Except.ok m) →
      ((∀ c ∈ cs, (∃ m, env.fetch c.gaPropertyId date = Except.ok m) →
        (∃ r ∈ (syncClientsLoop env now date cs db).1,
          r.clientId = c.id ∧ r.success = true) ∧
        hasMetricRow (syncClientsLoop env now date cs db).2 c.id date = true) ∧
      failedLogCount (syncClientsLoop env now date cs db).2 K.id date =
        failedLogCount db K.id date + cs.count K) := by
  intro cs
  induction cs with
  | nil =>
    intro db _
    refine ⟨fun c hc => absurd hc (List.not_mem_nil c), ?_⟩
    simp [syncClientsLoop]
  | cons c0 cs ih =>
    intro db hcs
    have ihr := ih (syncClientMetrics env now c0 date db).2
      (fun c hc => hcs c (List.mem_cons_of_mem c0 hc))
    rw [syncClientsLoop_cons]
    rcases hcs c0 (List.mem_cons_self c0 cs) with hc0K | ⟨m0, hm0⟩
    · subst hc0K
      refine ⟨?_, ?_⟩
      · intro c hc hok
        rcases List.mem_cons.mp hc with rfl | hc'
        · obtain ⟨m, hm⟩ := hok
          rw [hKfail] at hm
          exact absurd hm (by simp)
        · obtain ⟨⟨r, hr, hrprop⟩, hrow⟩ := ihr.1 c hc' hok
          exact ⟨⟨r, List.mem_cons_of_mem _ hr, hrprop⟩, hrow⟩
      · rw [ihr.2]
        rw [failedLogCount_syncClientMetrics_error_self env now c0 date db eK
          hKfail haudit]
        rw [List.count_cons_self]
        omega
    · have hc0ne : c0 ≠ K := by
        intro hEq
        rw [hEq, hKfail] at hm0
        exact absurd hm0 (by simp)
      refine ⟨?_, ?_⟩
      · intro c hc hok
        rcases List.mem_cons.mp hc with rfl | hc'
        · refine ⟨⟨(syncClientMetrics env now c date db).1,
            List.mem_cons_self _ _, ?_⟩, ?_⟩
          · rw [syncClientMetrics_ok env now c date db m0 hm0]
            exact ⟨rfl, rfl⟩
          · apply syncClientsLoop_hasRow_mono
            rw [syncClientMetrics_ok env now c date db m0 hm0]
            dsimp only
            rw [hasMetricRow_logSync]
            exact hasMetricRow_upsert_self db c.id date m0 now
        · obtain ⟨⟨r, hr, hrprop⟩, hrow⟩ := ihr.1 c hc' hok
          exact ⟨⟨r, List.mem_cons_of_mem _ hr, hrprop⟩, hrow⟩
      · rw [ihr.2]
        rw [failedLogCount_syncClientMetrics_ok env now c0 date db m0 _ _ hm0]
        rw [List.count_cons_of_ne (Ne.symm hc0ne)]

/-- C1: with a loadable roster in which exactly one tenant `K` (present
once) has a failing fetch and every other tenant's fetch succeeds,
`syncAllClients` still resolves; every tenant other than `K` gets a
successful per-tenant result and a stored `daily_metrics` row for the
date; exactly one new failed, 0-record `sync_logs` entry is written for
`K`; and — for any environment and database — `syncAllClients` rejects
exactly when loading the tenant roster itself fails. -/
theorem syncAllClients_isolation (env : Env) (now : Nat) (date : String)
    (db : DB) (K : Client) (clients : List Client)
    (hload : loadActiveClients env db = Except.ok clients)
    (haudit : env.auditOk = true)
    (hKmem : K ∈ clients)
    (hKonce : clients.count K = 1)
    (hKfail : ∃ eK, env.fetch K.gaPropertyId date = Except.error eK)
    (hothers : ∀ c ∈ clients, c ≠ K →
      ∃ m, env.fetch c.gaPropertyId date = Except.ok m) :
    (∃ s db', syncAllClients env now date db = Except.ok (s, db') ∧
      (∀ c ∈ clients, c ≠ K →
        (∃ r ∈ s.results, r.clientId = c.id ∧ r.success = true) ∧
        hasMetricRow db' c.id date = true) ∧
      failedLogCount db' K.id date = failedLogCount db K.id date + 1) ∧
    (∀ (env' : Env) (db₀ : DB) (e : String),
      syncAllClients env' now date db₀ = Except.error e ↔
        env'.rosterError = some e) := by
  constructor
  · obtain ⟨eK, heK⟩ := hKfail
    have hne : clients.isEmpty = false := by
      cases clients with
      | nil => exact absurd hKmem (List.not_mem_nil K)
      | cons a as => rfl
    have hloop := syncClientsLoop_isolation env now date K eK heK haudit
      clients db
      (fun c hc => if h : c = K then Or.inl h else Or.inr (hothers c hc h))
    unfold syncAllClients
    rw [hload]
    dsimp only
    rw [hne]
    simp only [Bool.false_eq_true, if_false]
    refine ⟨_, _, rfl, ?_, ?_⟩
    · intro c hc hcne
      exact hloop.1 c hc (hothers c hc hcne)
    · rw [hloop.2, hKonce]
  · intro env' db₀ e
    constructor
    · intro he
      unfold syncAllClients loadActiveClients at he
      cases hre : env'.rosterError with
      | some e' =>
        rw [hre] at he
        dsimp only at he
        rw [← Except.error.inj he]
      | none =>
        rw [hre] at he
        dsimp only at he
        by_cases hemp :
            (sortByName (db₀.clients.filter (fun c => c.isActive))).isEmpty
        · rw [if_pos hemp] at he
          exact absurd he (by simp)
        · rw [if_neg hemp] at he
          exact absurd he (by simp)
    · intro hre
      unfold syncAllClients loadActiveClients
      rw [hre]

/-- Witness for C1: a two-tenant roster where exactly the second
tenant's fetch fails. -/
theorem syncAllClients_isolation_witness :
    loadActiveClients envFail456 twoClientDB = Except.ok [clientA, clientB] ∧
    envFail456.auditOk = true ∧
    clientB ∈ [clientA, clientB] ∧
    List.count clientB [clientA, clientB] = 1 ∧
    (∃ eK, envFail456.fetch clientB.gaPropertyId "2024-03-01" =
      Except.error eK) ∧
    ((∃ s db', syncAllClients envFail456 7 "2024-03-01" twoClientDB =
        Except.ok (s, db') ∧
      (∀ c ∈ [clientA, clientB], c ≠ clientB →
        (∃ r ∈ s.results, r.clientId = c.id ∧ r.success = true) ∧
        hasMetricRow db' c.id "2024-03-01" = true) ∧
      failedLogCount db' clientB.id "2024-03-01" =
        failedLogCount twoClientDB clientB.id "2024-03-01" + 1) ∧
     (∀ (env' : Env) (db₀ : DB) (e : String),
       syncAllClients env' 7 "2024-03-01" db₀ = Except.error e ↔
         env'.rosterError = some e)) := by
  refine ⟨rfl, rfl, by decide, by decide, ⟨_, rfl⟩, ?_⟩
  exact syncAllClients_isolation envFail456 7 "2024-03-01" twoClientDB clientB
    [clientA, clientB] rfl rfl (by decide) (by decide) ⟨_, rfl⟩
    (by
      intro c hc hne
      have hcc : c = clientA ∨ c = clientB := by simpa using hc
      rcases hcc with rfl | rfl
      · exact ⟨_, rfl⟩
      · exact absurd rfl hne)

theorem syncClientMetrics_rowsFor_ok (env : Env) (now : Nat) (c : Client)
    (date : String) (db : DB) (m : MetricsResult)
    (h : env.fetch c.gaPropertyId date = Except.ok m)
    (hlen : (metricRowsFor db c.id date).length ≤ 1) :
    metricRowsFor (syncClientMetrics env now c date db).2 c.id date =
      [mkMetricRow c.id date m now] := by
  rw [syncClientMetrics_ok env now c date db m h]
  dsimp only
  rw [metricRowsFor_logSync]
  exact metricRowsFor_upsert_self db c.id date m now hlen

theorem syncClientMetrics_rowsFor_other (env : Env) (now : Nat) (c : Client)
    (date : String) (db : DB) (cid : Nat) (d : String)
    (hne : ¬(cid = c.id ∧ d = date)) :
    metricRowsFor (syncClientMetrics env now c date db).2 cid d =
      metricRowsFor db cid d := by
  cases hf : env.fetch c.gaPropertyId date with
  | ok m =>
    rw [syncClientMetrics_ok env now c date db m hf]
    dsimp only
    rw [metricRowsFor_logSync]
    exact metricRowsFor_upsert_other db c.id date m now cid d hne
  | error msg =>
    rw [syncClientMetrics_error env now c date db msg hf]
    dsimp only
    rw [metricRowsFor_logSync]

theorem syncClientsLoop_rowsFor_untouched (env : Env) (now : Nat)
    (date : String) :
    ∀ (cs : List Client) (db : DB) (cid : Nat) (d : String),
      (∀ c ∈ cs, c.id ≠ cid) →
      metricRowsFor (syncClientsLoop env now date cs db).2 cid d =
        metricRowsFor db cid d := by
  intro cs
  induction cs with
  | nil => intro db cid d _; rfl
  | cons c0 cs ih =>
    intro db cid d h
    rw [syncClientsLoop_cons]
    rw [ih _ cid d (fun c hc => h c (List.mem_cons_of_mem c0 hc))]
    exact syncClientMetrics_rowsFor_other env now c0 date db cid d
      (fun hand => (h c0 (List.mem_cons_self c0 cs)) hand.1.symm)

/-- The per-client loop when every fetch succeeds and roster ids are
distinct: each client's key ends up with exactly the freshly written
row carrying that client's fetched metrics and the current tick. -/
theorem syncClientsLoop_allOk_rowsFor (env : Env) (now : Nat)
    (date : String) :
    ∀ (cs : List Client) (db : DB),
      (∀ c ∈ cs, ∃ m, env.fetch c.gaPropertyId date = Except.ok m) →
      (cs.map (fun c => c.id)).Nodup →
      (∀ c ∈ cs, (metricRowsFor db c.id date).length ≤ 1) →
      ∀ c ∈ cs, ∀ m, env.fetch c.gaPropertyId date = Except.ok m →
        metricRowsFor (syncClientsLoop env now date cs db).2 c.id date =
          [mkMetricRow c.id date m now] := by
  intro cs
  induction cs with
  | nil => intro db _ _ _ c hc; exact absurd hc (List.not_mem_nil c)
  | cons c0 cs ih =>
    intro db hok hnodup hlen c hc m hm
    have hnodup2 := hnodup
    rw [List.map_cons] at hnodup2
    obtain ⟨hid0, hnodupT⟩ := List.nodup_cons.mp hnodup2
    rw [syncClientsLoop_cons]
    obtain ⟨m0, hm0⟩ := hok c0 (List.mem_cons_self c0 cs)
    rcases List.mem_cons.mp hc with rfl | hc'
    · have hmm0 : m0 = m := Except.ok.inj (hm0.symm.trans hm)
      rw [syncClientsLoop_rowsFor_untouched env now date cs _ c.id date
        (fun c' hcm hEq => hid0 (hEq ▸ List.mem_map_of_mem _ hcm))]
      rw [syncClientMetrics_rowsFor_ok env now c date db m0 hm0
        (hlen c (List.mem_cons_self c cs))]
      rw [hmm0]
    · apply ih (syncClientMetrics env now c0 date db).2
        (fun c' h' => hok c' (List.mem_cons_of_mem _ h'))
        hnodupT ?_ c hc' m hm
      intro c' h'
      have hne : ¬(c'.id = c0.id ∧ date = date) :=
        fun hand => hid0 (hand.1 ▸ List.mem_map_of_mem _ h')
      rw [syncClientMetrics_rowsFor_other env now c0 date db c'.id date hne]
      exact hlen c' (List.mem_cons_of_mem _ h')

theorem loadActiveClients_ok_elim (env : Env) (db : DB)
    (clients : List Client)
    (h : loadActiveClients env db = Except.ok clients) :
    env.rosterError = none ∧
    clients = sortByName (db.clients.filter (fun c => c.isActive)) := by
  unfold loadActiveClients at h
  cases hre : env.rosterError with
  | some e => rw [hre] at h; exact absurd h (by simp)
  | none => rw [hre] at h; exact ⟨rfl, (Except.ok.inj h).symm⟩

theorem syncAllClients_resolves (env : Env) (now : Nat) (date : String)
    (db : DB) (hre : env.rosterError = none) :
    ∃ s db', syncAllClients env now date db = Except.ok (s, db') := by
  unfold syncAllClients loadActiveClients
  rw [hre]
  dsimp only
  by_cases hemp :
      (sortByName (db.clients.filter (fun c => c.isActive))).isEmpty
  · rw [if_pos hemp]; exact ⟨_, _, rfl⟩
  · rw [if_neg hemp]; exact ⟨_, _, rfl⟩

/-- Value of `syncAllClients` on a loadable nonempty roster. -/
theorem syncAllClients_ok_nonempty (env : Env) (now : Nat) (date : String)
    (db : DB) (clients : List Client)
    (hload : loadActiveClients env db = Except.ok clients)
    (hne : clients.isEmpty = false) :
    syncAllClients env now date db =
      Except.ok
        ({ success := ((syncClientsLoop env now date clients db).1.filter
              (fun r => !r.success)).length == 0
           date := some date, totalClients := clients.length
           successCount := ((syncClientsLoop env now date clients db).1.filter
             (fun r => r.success)).length
           failureCount := ((syncClientsLoop env now date clients db).1.filter
             (fun r => !r.success)).length
           results := (syncClientsLoop env now date clients db).1 },
         (syncClientsLoop env now date clients db).2) := by
  unfold syncAllClients
  rw [hload]
  dsimp only
  rw [hne]
  simp only [Bool.false_eq_true, if_false]

/-- Value of `syncAllClients` on a loadable empty roster. -/
theorem syncAllClients_ok_empty (env : Env) (now : Nat) (date : String)
    (db : DB) (clients : List Client)
    (hload : loadActiveClients env db = Except.ok clients)
    (hemp : clients.isEmpty = true) :
    syncAllClients env now date db =
      Except.ok ({ success := true, date := none, totalClients := 0
                   successCount := 0, failureCount := 0, results := [] },
                 db) := by
  unfold syncAllClients
  rw [hload]
  dsimp only
  rw [hemp]
  simp only [if_pos]

/-- C2: running `syncAllClients(date)` a second time over a roster of
distinct tenants whose fetches succeed leaves, for every active tenant,
exactly one `daily_metrics` row keyed `(tenant, date)` — the row's
metric fields all equal the latest provider response and its synced
tick is the second run's — no duplicate row is inserted. -/
theorem syncAllClients_idempotent (env₁ env₂ : Env) (now₁ now₂ : Nat)
    (date : String) (db : DB) (clients : List Client)
    (hload : loadActiveClients env₁ db = Except.ok clients)
    (hre₂ : env₂.rosterError = none)
    (hids : (clients.map (fun c => c.id)).Nodup)
    (hkeys : ∀ c ∈ clients, (metricRowsFor db c.id date).length ≤ 1)
    (hok₁ : ∀ c ∈ clients, ∃ m, env₁.fetch c.gaPropertyId date = Except.ok m)
    (hok₂ : ∀ c ∈ clients, ∃ m, env₂.fetch c.gaPropertyId date = Except.ok m) :
    ∀ s₁ db₁, syncAllClients env₁ now₁ date db = Except.ok (s₁, db₁) →
      ∃ s₂ db₂, syncAllClients env₂ now₂ date db₁ = Except.ok (s₂, db₂) ∧
        ∀ c ∈ clients, ∀ m₂, env₂.fetch c.gaPropertyId date = Except.ok m₂ →
          metricRowsFor db₂ c.id date = [mkMetricRow c.id date m₂ now₂] := by
  intro s₁ db₁ hrun1
  obtain ⟨hre₁, hcl⟩ := loadActiveClients_ok_elim env₁ db clients hload
  cases hemp : clients.isEmpty with
  | true =>
    obtain ⟨s₂, db₂, h2⟩ := syncAllClients_resolves env₂ now₂ date db₁ hre₂
    refine ⟨s₂, db₂, h2, ?_⟩
    intro c hc
    cases hclnil : clients with
    | nil => rw [hclnil] at hc; exact absurd hc (List.not_mem_nil c)
    | cons a as => rw [hclnil] at hemp; simp at hemp
  | false =>
    rw [syncAllClients_ok_nonempty env₁ now₁ date db clients hload hemp]
      at hrun1
    have hdb1 : (syncClientsLoop env₁ now₁ date clients db).2 = db₁ :=
      congrArg Prod.snd (Except.ok.inj hrun1)
    have hload2 : loadActiveClients env₂ db₁ = Except.ok clients := by
      unfold loadActiveClients
      rw [hre₂]
      dsimp only
      rw [← hdb1, syncClientsLoop_clients, ← hcl]
    rw [syncAllClients_ok_nonempty env₂ now₂ date db₁ clients hload2 hemp]
    refine ⟨_, _, rfl, ?_⟩
    intro c hc m₂ hm₂
    apply syncClientsLoop_allOk_rowsFor env₂ now₂ date clients db₁ hok₂ hids
      ?_ c hc m₂ hm₂
    intro c' hc'
    obtain ⟨m₁, hm₁⟩ := hok₁ c' hc'
    have hone := syncClientsLoop_allOk_rowsFor env₁ now₁ date clients db hok₁
      hids hkeys c' hc' m₁ hm₁
    rw [hdb1] at hone
    rw [hone]
    simp

/-- Witness for C2: one active tenant synced twice (ticks 1 then 2). -/
theorem syncAllClients_idempotent_witness :
    loadActiveClients envOkTrue oneClientDB = Except.ok [clientA] ∧
    envOkTrue.rosterError = none ∧
    ([clientA].map (fun c => c.id)).Nodup ∧
    (∀ c ∈ [clientA],
      (metricRowsFor oneClientDB c.id "2024-03-01").length ≤ 1) ∧
    (∃ p, syncAllClients envOkTrue 1 "2024-03-01" oneClientDB =
      Except.ok p) ∧
    (∀ s₁ db₁, syncAllClients envOkTrue 1 "2024-03-01" oneClientDB =
        Except.ok (s₁, db₁) →
      ∃ s₂ db₂, syncAllClients envOkTrue 2 "2024-03-01" db₁ =
          Except.ok (s₂, db₂) ∧
        ∀ c ∈ [clientA], ∀ m₂,
          envOkTrue.fetch c.gaPropertyId "2024-03-01" = Except.ok m₂ →
          metricRowsFor db₂ c.id "2024-03-01" =
            [mkMetricRow c.id "2024-03-01" m₂ 2]) := by
  refine ⟨rfl, rfl, by decide, by decide, ⟨_, rfl⟩, ?_⟩
  exact syncAllClients_idempotent envOkTrue envOkTrue 1 2 "2024-03-01"
    oneClientDB [clientA] rfl rfl (by decide) (by decide)
    (fun c hc => ⟨_, rfl⟩) (fun c hc => ⟨_, rfl⟩)

/-- Unfolding of the per-date backfill loop on a cons cell. -/
theorem syncDatesLoop_cons (env : Env) (now : Nat) (client : Client)
    (d : String) (ds : List String) (db : DB) :
    syncDatesLoop env now client (d :: ds) db =
      ((syncClientMetrics env now client d db).1 ::
        (syncDatesLoop env now client ds
          (syncClientMetrics env now client d db).2).1,
       (syncDatesLoop env now client ds
         (syncClientMetrics env now client d db).2).2) := rfl

/-- Each sync attempt writes exactly one audit row for its tenant
(success or failure alike) when the audit write works. -/
theorem tenantLogCount_syncClientMetrics_self (env : Env) (now : Nat)
    (c : Client) (d : String) (db : DB) (haudit : env.auditOk = true) :
    tenantLogCount (syncClientMetrics env now c d db).2 c.id =
      tenantLogCount db c.id + 1 := by
  cases hf : env.fetch c.gaPropertyId d with
  | ok m =>
    rw [syncClientMetrics_ok env now c d db m hf]
    dsimp only
    rw [tenantLogCount_logSync_self env _ c.id d "success" 1 none 0 haudit]
    rw [tenantLogCount_upsert]
  | error msg =>
    rw [syncClientMetrics_error env now c d db msg hf]
    dsimp only
    exact tenantLogCount_logSync_self env db c.id d "failed" 0 (some msg) 0
      haudit

/-- Each sync attempt grows the metrics table by at most one row. -/
theorem syncClientMetrics_metrics_length (env : Env) (now : Nat) (c : Client)
    (d : String) (db : DB) :
    (syncClientMetrics env now c d db).2.dailyMetrics.length ≤
      db.dailyMetrics.length + 1 := by
  cases hf : env.fetch c.gaPropertyId d with
  | ok m =>
    rw [syncClientMetrics_ok env now c d db m hf]
    dsimp only
    rw [logSync_dailyMetrics]
    exact upsert_length_le db c.id d m now
  | error msg =>
    rw [syncClientMetrics_error env now c d db msg hf]
    dsimp only
    rw [logSync_dailyMetrics]
    exact Nat.le_succ _

/-- The backfill loop writes exactly one audit row per day and at most
one metric row per day. -/
theorem syncDatesLoop_counts (env : Env) (now : Nat) (client : Client)
    (haudit : env.auditOk = true) :
    ∀ (ds : List String) (db : DB),
      tenantLogCount (syncDatesLoop env now client ds db).2 client.id =
        tenantLogCount db client.id + ds.length ∧
      (syncDatesLoop env now client ds db).2.dailyMetrics.length ≤
        db.dailyMetrics.length + ds.length := by
  intro ds
  induction ds with
  | nil => intro db; exact ⟨rfl, Nat.le_refl _⟩
  | cons d ds ih =>
    intro db
    rw [syncDatesLoop_cons]
    obtain ⟨ih1, ih2⟩ := ih (syncClientMetrics env now client d db).2
    have hstep1 := tenantLogCount_syncClientMetrics_self env now client d db
      haudit
    have hstep2 := syncClientMetrics_metrics_length env now client d db
    constructor
    · rw [ih1, hstep1]
      simp only [List.length_cons]
      omega
    · simp only [List.length_cons]
      omega

/-- C5: `backfillClientData` rejects exactly when the tenant id does
not exist; when it resolves it has attempted one sync per day of the
inclusive range — appending exactly `N` audit rows for the tenant and
at most `N` metric rows, where `N` is the number of days in the range,
whatever mix of per-day successes and failures occurred — and the
range `2024-01-01 … 2024-01-03` expands to exactly its 3 days. -/
theorem backfill_completeness (env : Env) (now : Nat) (cid : Nat)
    (sd ed : String) (db : DB) (haudit : env.auditOk = true) :
    ((∃ err, backfillClientData env now cid sd ed db = Except.error err) ↔
      findClient db cid = none) ∧
    (∀ summary db',
      backfillClientData env now cid sd ed db = Except.ok (summary, db') →
      tenantLogCount db' cid =
        tenantLogCount db cid + (generateDateRange sd ed).length ∧
      db'.dailyMetrics.length ≤
        db.dailyMetrics.length + (generateDateRange sd ed).length ∧
      summary.totalDays = (generateDateRange sd ed).length) ∧
    generateDateRange "2024-01-01" "2024-01-03" =
      ["2024-01-01", "2024-01-02", "2024-01-03"] := by
  refine ⟨?_, ?_, by decide⟩
  · unfold backfillClientData
    cases hfc : findClient db cid with
    | none => simp
    | some client => simp
  · intro summary db' hok
    unfold backfillClientData at hok
    cases hfc : findClient db cid with
    | none =>
      rw [hfc] at hok
      dsimp only at hok
      exact absurd hok (by simp)
    | some client =>
      rw [hfc] at hok
      dsimp only at hok
      have hpair := Except.ok.inj hok
      have hsum := congrArg Prod.fst hpair
      have hdb := congrArg Prod.snd hpair
      dsimp only at hsum hdb
      have hcid : client.id = cid := by
        unfold findClient at hfc
        have := List.find?_some hfc
        simpa using this
      obtain ⟨hcount, hlen⟩ := syncDatesLoop_counts env now client haudit
        (generateDateRange sd ed) db
      refine ⟨?_, ?_, ?_⟩
      · rw [← hdb, ← hcid]
        exact hcount
      · rw [← hdb]
        exact hlen
      · rw [← hsum]

/-- Witness for C5: a 3-day backfill of the existing tenant resolves. -/
theorem backfill_completeness_witness :
    envOkTrue.auditOk = true ∧
    (∃ p, backfillClientData envOkTrue 3 1 "2024-01-01" "2024-01-03"
      oneClientDB = Except.ok p) ∧
    generateDateRange "2024-01-01" "2024-01-03" =
      ["2024-01-01", "2024-01-02", "2024-01-03"] :=
  ⟨rfl, ⟨_, rfl⟩,
    (backfill_completeness envOkTrue 3 1 "2024-01-01" "2024-01-03"
      oneClientDB rfl).2.2⟩

/-- C4: the normalizer multiplies the provider's bounce-rate fraction
(the sixth metric cell) by 100 for every single-day response, and in
particular stores 45.32 (exactly, hence within ±0.01) for the input
0.4532; and `formatGA4Date` splits any 8-character compact date into
`YYYY-MM-DD` form, in particular mapping `20240115` to `2024-01-15`. -/
theorem bounce_rate_and_date_normalization :
    (∀ (dvs : List String) (m0 m1 m2 m3 m4 : Option Rat) (q : Rat)
        (tailCells : List (Option Rat)) (rest : List GARow),
      (parseMetricsResponse
        ⟨{ dimensionValues := dvs
           metricValues := m0 :: m1 :: m2 :: m3 :: m4 :: some q :: tailCells }
          :: rest⟩).bounceRate = q * 100) ∧
    (parseMetricsResponse bounceExample).bounceRate = 4532 / 100 ∧
    |(parseMetricsResponse bounceExample).bounceRate - 4532 / 100| ≤ 1 / 100 ∧
    (∀ (y1 y2 y3 y4 mo1 mo2 d1 d2 : Char),
      formatGA4Date (String.mk [y1, y2, y3, y4, mo1, mo2, d1, d2]) =
        String.mk [y1, y2, y3, y4] ++ "-" ++ String.mk [mo1, mo2] ++ "-" ++
          String.mk [d1, d2]) ∧
    formatGA4Date "20240115" = "2024-01-15" := by
  refine ⟨fun dvs m0 m1 m2 m3 m4 q tailCells rest => rfl, ?_, ?_,
    fun y1 y2 y3 y4 mo1 mo2 d1 d2 => rfl, rfl⟩
  · norm_num [parseMetricsResponse, bounceExample, jsParseFloat]
  · norm_num [parseMetricsResponse, bounceExample, jsParseFloat]

/-- C6 counterexample: on a transient, non-access-denied failure of the
metadata probe, `validatePropertyAccess` returns `false` instead of
propagating the failure — the claim that it "throws only for unexpected
or transient failures (never converting them into a false return)"
fails at this input. -/
theorem validatePropertyAccess_transient_counterexample :
    transientProvider.getMetadata "properties/123/metadata" =
      Except.error transientGAError ∧
    transientGAError.code ≠ some GAErrCode.permissionDenied ∧
    validatePropertyAccess transientProvider "123" = false :=
  ⟨rfl, by decide, rfl⟩

/-- C6 (amended): `validatePropertyAccess(propertyId)` returns `true`
iff the metadata probe succeeds, and returns `false` on every error —
access-denied or transient alike; it never rejects (its codomain is a
plain boolean: every error is caught). -/
theorem validatePropertyAccess_characterization (p : Provider)
    (propertyId : String) :
    (validatePropertyAccess p propertyId = true ↔
      p.getMetadata ("properties/" ++ propertyId ++ "/metadata") =
        Except.ok ()) ∧
    (validatePropertyAccess p propertyId = false ↔
      ∃ e, p.getMetadata ("properties/" ++ propertyId ++ "/metadata") =
        Except.error e) := by
  unfold validatePropertyAccess
  cases h : p.getMetadata ("properties/" ++ propertyId ++ "/metadata") with
  | ok u => cases u; simp
  | error e => simp

/-- C8: the outcome of a per-tenant sync attempt — the result object,
the metric rows, the client roster — is identical whether the audit-log
write succeeds or fails; only the `sync_logs` table can differ. -/
theorem audit_failure_never_changes_outcome (env : Env) (now : Nat)
    (c : Client) (date : String) (db : DB) :
    (syncClientMetrics { env with auditOk := true } now c date db).1 =
      (syncClientMetrics { env with auditOk := false } now c date db).1 ∧
    (syncClientMetrics { env with auditOk := true } now c date db).2.dailyMetrics
      = (syncClientMetrics { env with auditOk := false } now c date db).2.dailyMetrics ∧
    (syncClientMetrics { env with auditOk := true } now c date db).2.clients
      = (syncClientMetrics { env with auditOk := false } now c date db).2.clients := by
  unfold syncClientMetrics
  cases h : env.fetch c.gaPropertyId date <;> simp [h]

/-- C9 counterexample: two manual triggers in a row reach a state with
two syncs in flight — each sync covers every active tenant, so a sync
for a tenant is started while another covering the same tenant is still
running; the coarse `syncInProgress` flag does not guard the manual (or
cron) entry points. -/
theorem overlapping_syncs_counterexample :
    ReachableProc ⟨false, 0, 2⟩ ∧ ¬ inFlight ⟨false, 0, 2⟩ ≤ 1 := by
  constructor
  · have h1 : SyncStep initProcState ⟨false, 0, 1⟩ :=
      SyncStep.manualStart initProcState
    have h2 : SyncStep ⟨false, 0, 1⟩ ⟨false, 0, 2⟩ :=
      SyncStep.manualStart ⟨false, 0, 1⟩
    exact Relation.ReflTransGen.head h1 (Relation.ReflTransGen.single h2)
  · decide

/-- C9 (amended): the in-process flag guards only the auto-sync entry
point — in every reachable state at most one auto-sync–initiated sync
is in flight; the manual and scheduled entry points are unguarded, so a
second sync covering the same tenant can be started while one is in
flight. -/
theorem auto_sync_guard (s : SyncProcState) (h : ReachableProc s) :
    s.autoRunning ≤ 1 := by
  have key : ∀ t, ReachableProc t →
      t.autoRunning ≤ 1 ∧ (t.syncInProgress = false → t.autoRunning = 0) := by
    intro t ht
    induction ht with
    | refl => exact ⟨by decide, fun _ => rfl⟩
    | tail hab hbc ih =>
      cases hbc with
      | autoStart hflag =>
        have h0 := ih.2 hflag
        refine ⟨?_, ?_⟩
        · dsimp only
          omega
        · intro habs
          dsimp only at habs
          exact absurd habs (by decide)
      | autoSkip hflag => exact ih
      | manualStart => exact ⟨ih.1, ih.2⟩
      | cronStart => exact ⟨ih.1, ih.2⟩
      | autoFinish hpos =>
        have h1 := ih.1
        refine ⟨?_, fun _ => ?_⟩
        · dsimp only
          omega
        · dsimp only
          omega
      | otherFinish hpos => exact ⟨ih.1, ih.2⟩
  exact (key s h).1

/-- Witness for the amended C9 guard at the initial state. -/
theorem auto_sync_guard_witness :
    ReachableProc initProcState ∧ initProcState.autoRunning ≤ 1 :=
  ⟨Relation.ReflTransGen.refl,
    auto_sync_guard initProcState Relation.ReflTransGen.refl⟩

/-- C7 counterexample: at 12:30 UTC on 2024-03-01 in a process whose
reference timezone is UTC+13:00, "current date minus one calendar day
in the process's reference timezone" is 2024-03-01 (local today is
2024-03-02), but `getYesterdayDate` renders via `toISOString` and
produces the UTC-based 2024-02-29 — the claim fails at this input. -/
theorem getYesterdayDate_timezone_counterexample :
    getYesterdayDate clockNZ = "2024-02-29" ∧
    specYesterdayDate clockNZ = "2024-03-01" ∧
    getYesterdayDate clockNZ ≠ specYesterdayDate clockNZ := by
  refine ⟨by decide, by decide, by decide⟩

/-- C7 (amended): `syncYesterday` computes its target date as the UTC
calendar date of the instant one day (24 h) before now — `setDate
(getDate() - 1)` followed by `toISOString` — which coincides with the
current date minus one calendar day in the process's reference timezone
when that timezone is UTC; and it returns exactly the result of
`syncAllClients` applied to that date. -/
theorem syncYesterday_utc_minus_one_day (env : Env) (now : Nat)
    (clock : Clock) (db : DB) :
    syncYesterday env now clock db =
      syncAllClients env now
        (formatCivilDate (civilFromDays ((clock.nowMs - msPerDay) / msPerDay)))
        db ∧
    (clock.tzOffsetMin = 0 → msPerDay ≤ clock.nowMs →
      getYesterdayDate clock = specYesterdayDate clock) := by
  constructor
  · rfl
  · intro h0 hge
    unfold getYesterdayDate specYesterdayDate
    rw [h0]
    simp only [zero_mul, add_zero, Int.toNat_natCast]
    have hb : 0 < msPerDay := by decide
    have hsum : (clock.nowMs - msPerDay) + msPerDay = clock.nowMs :=
      Nat.sub_add_cancel hge
    have hdiv : clock.nowMs / msPerDay =
        (clock.nowMs - msPerDay) / msPerDay + 1 := by
      conv_lhs => rw [← hsum]
      exact Nat.add_div_right _ hb
    rw [hdiv]
    simp

/-- Witness for the amended C7 at a concrete UTC clock. -/
theorem syncYesterday_utc_minus_one_day_witness :
    clockUTC.tzOffsetMin = 0 ∧ msPerDay ≤ clockUTC.nowMs ∧
    syncYesterday envOkTrue 0 clockUTC noClientsDB =
      syncAllClients envOkTrue 0
        (formatCivilDate (civilFromDays ((clockUTC.nowMs - msPerDay) / msPerDay)))
        noClientsDB ∧
    getYesterdayDate clockUTC = specYesterdayDate clockUTC :=
  ⟨rfl, by decide,
    (syncYesterday_utc_minus_one_day envOkTrue 0 clockUTC noClientsDB).1,
    (syncYesterday_utc_minus_one_day envOkTrue 0 clockUTC noClientsDB).2 rfl
      (by decide)⟩

/-- C10: whenever `syncAllClients` resolves, the summary's `success`
field is `true` iff `failureCount = 0`, iff every per-tenant result
succeeded; and with a loadable but empty active roster it resolves with
the zero-valued summary (success, all counts 0, no results) leaving the
database untouched. -/
theorem syncAllClients_success_iff (env : Env) (now : Nat) (date : String)
    (db : DB) :
    (∀ s db', syncAllClients env now date db = Except.ok (s, db') →
      ((s.success = true ↔ s.failureCount = 0) ∧
       (s.success = true ↔ ∀ r ∈ s.results, r.success = true))) ∧
    (env.rosterError = none →
      db.clients.filter (fun c => c.isActive) = [] →
      syncAllClients env now date db =
        Except.ok ({ success := true, date := none, totalClients := 0
                     successCount := 0, failureCount := 0, results := [] },
                   db)) := by
  constructor
  · intro s db' hok
    unfold syncAllClients loadActiveClients at hok
    cases hre : env.rosterError with
    | some e =>
      rw [hre] at hok
      dsimp only at hok
      exact absurd hok (by simp)
    | none =>
      rw [hre] at hok
      dsimp only at hok
      by_cases hemp :
          (sortByName (db.clients.filter (fun c => c.isActive))).isEmpty
      · rw [if_pos hemp] at hok
        have hs : s = { success := true, date := none, totalClients := 0
                        successCount := 0, failureCount := 0, results := [] } :=
          (congrArg Prod.fst (Except.ok.inj hok)).symm
        subst hs
        simp
      · rw [if_neg hemp] at hok
        have hs := (congrArg Prod.fst (Except.ok.inj hok)).symm
        subst hs
        constructor
        · simp
        · simp [List.filter_eq_nil_iff, List.length_eq_zero]
  · intro h1 h2
    unfold syncAllClients loadActiveClients
    rw [h1, h2]
    rfl

/-- Witness for C10 with an empty roster. -/
theorem syncAllClients_success_iff_witness :
    envOkTrue.rosterError = none ∧
    noClientsDB.clients.filter (fun c => c.isActive) = [] ∧
    syncAllClients envOkTrue 0 "2024-03-01" noClientsDB =
      Except.ok ({ success := true, date := none, totalClients := 0
                   successCount := 0, failureCount := 0, results := [] },
                 noClientsDB) :=
  ⟨rfl, rfl,
    (syncAllClients_success_iff envOkTrue 0 "2024-03-01" noClientsDB).2 rfl rfl⟩

/-- C3: a provider answering both single-day queries with zero rows
makes `fetchDailyMetrics` resolve with the all-zero metrics record (not
an error), and the per-tenant sync for that day succeeds and stores an
all-zero `daily_metrics` row for the tenant rather than failing or
skipping it. -/
theorem zero_rows_zero_metrics (p : Provider) (propertyId date : String)
    (c : Client) (db : DB) (re : Option String) (a : Bool) (now : Nat)
    (htotal : p.runReport (mkTotalRequest propertyId date) = Except.ok ⟨[]⟩)
    (horg : p.runReport (mkOrganicRequest propertyId date) = Except.ok ⟨[]⟩)
    (hprop : c.gaPropertyId = propertyId) :
    fetchDailyMetrics p propertyId date =
      Except.ok (zeroMetricsResult date) ∧
    (syncClientMetrics ⟨fetchDailyMetrics p, re, a⟩ now c date db).1.success
      = true ∧
    ∃ r ∈ (syncClientMetrics ⟨fetchDailyMetrics p, re, a⟩ now c date
        db).2.dailyMetrics,
      r.clientId = c.id ∧ r.date = date ∧ r.sessions = 0 ∧ r.users = 0 ∧
      r.newUsers = 0 ∧ r.pageviews = 0 ∧ r.avgSessionDuration = 0 ∧
      r.bounceRate = 0 ∧ r.organicSessions = 0 := by
  have hfetch : fetchDailyMetrics p propertyId date =
      Except.ok (zeroMetricsResult date) := by
    unfold fetchDailyMetrics
    rw [htotal, horg]
    rfl
  have hfetch' : fetchDailyMetrics p c.gaPropertyId date =
      Except.ok (zeroMetricsResult date) := by rw [hprop]; exact hfetch
  refine ⟨hfetch, ?_, ?_⟩
  · unfold syncClientMetrics
    rw [show (⟨fetchDailyMetrics p, re, a⟩ : Env).fetch = fetchDailyMetrics p
          from rfl, hfetch']
  · unfold syncClientMetrics
    rw [show (⟨fetchDailyMetrics p, re, a⟩ : Env).fetch = fetchDailyMetrics p
          from rfl, hfetch']
    refine ⟨mkMetricRow c.id date (zeroMetricsResult date) now, ?_, ?_⟩
    · simp only [logSync_dailyMetrics]
      exact mkMetricRow_mem_upsert ..
    · simp [mkMetricRow, zeroMetricsResult]

/-- Witness for C3 with the zero-row provider. -/
theorem zero_rows_zero_metrics_witness :
    emptyProvider.runReport (mkTotalRequest "123" "2024-01-15") =
      Except.ok ⟨[]⟩ ∧
    emptyProvider.runReport (mkOrganicRequest "123" "2024-01-15") =
      Except.ok ⟨[]⟩ ∧
    clientA.gaPropertyId = "123" ∧
    fetchDailyMetrics emptyProvider "123" "2024-01-15" =
      Except.ok (zeroMetricsResult "2024-01-15") ∧
    (syncClientMetrics ⟨fetchDailyMetrics emptyProvider, none, true⟩ 5 clientA
      "2024-01-15" oneClientDB).1.success = true :=
  ⟨rfl, rfl, rfl,
    (zero_rows_zero_metrics emptyProvider "123" "2024-01-15" clientA
      oneClientDB none true 5 rfl rfl rfl).1,
    (zero_rows_zero_metrics emptyProvider "123" "2024-01-15" clientA
      oneClientDB none true 5 rfl rfl rfl).2.1⟩

end SEO
